import Mathlib

/-!
# Stepper controller: the bounded motion coordinator of `src/main.cpp`

A shallow embedding of the firmware's control cycle.

* `long` is the 32-bit signed integer of the target; values are kept in `Int` and every
  arithmetic result is reduced by `wrapLong`.  `unsigned long` (the millisecond clock and
  the timers) is kept in `Nat` and reduced modulo `2 ^ 32`.
* The stepper drive (`AccelStepper`) is an external collaborator.  Its position counter
  and target are modelled; its speed ramp is not.  Each call of `run()` / `runSpeed()` is
  given the step the drive takes in that call (`StepTaken`), and `runToPosition()` is the
  drive reaching its target.  The float speed only matters for `isRunning()` / `stop()`,
  and is supplied as the braking distance `brake`.
* The EEPROM is a byte memory; `put` / `get` move four little-endian bytes.
* The serial line, the clock readings and the button samples are inputs of the cycle.
-/

namespace Steppercontroller

/-! ## Machine integers -/

/-- Two's complement reduction of an integer to the 32-bit `long` of the target. -/
def wrapLong (x : Int) : Int := (x + 2147483648) % 4294967296 - 2147483648

/-- The values a `long` variable can hold. -/
def isLong (x : Int) : Prop := -2147483648 ≤ x ∧ x < 2147483648

instance (x : Int) : Decidable (isLong x) := by
  unfold isLong
  infer_instance

/-- Conversion of a `long` to `unsigned long`. -/
def toULong (x : Int) : Nat := (x % 4294967296).toNat

/-- Subtraction of two `unsigned long` values. -/
def usub (a b : Nat) : Nat := (a + (4294967296 - b % 4294967296)) % 4294967296

/-! ## class Timer -/

/-- The two private members of `Timer`. -/
structure Timer where
  interval : Nat
  previousMillis : Nat
deriving DecidableEq, Repr

/-- The method `Timer::elapsed()`, with `millis()` read as `now`. -/
def Timer.elapsed (t : Timer) (now : Nat) : Bool × Timer :=
  if t.interval ≤ usub now t.previousMillis then
    (true, { t with previousMillis := (t.previousMillis + t.interval) % 4294967296 })
  else
    (false, t)

/-- The method `Timer::reset()`, with `millis()` read as `now`. -/
def Timer.reset (t : Timer) (now : Nat) : Timer :=
  { t with previousMillis := now }

/-- The method `Timer::setInterval(interval)`. -/
def Timer.setInterval (t : Timer) (interval : Nat) : Timer :=
  { t with interval := interval }

/-! ## The stepper drive -/

/-- The step a single `run()` or `runSpeed()` call of the drive takes. -/
inductive StepTaken where
  | none
  | cw
  | ccw
deriving DecidableEq, Repr

/-- Change of the position counter for a step. -/
def StepTaken.delta : StepTaken → Int
  | .none => 0
  | .cw => 1
  | .ccw => -1

/-- Position counter and target of the `AccelStepper` object. -/
structure AccelStepper where
  currentPos : Int
  targetPos : Int
deriving DecidableEq, Repr

/-- The drive's `moveTo(absolute)`. -/
def AccelStepper.moveTo (st : AccelStepper) (absolute : Int) : AccelStepper :=
  { st with targetPos := absolute }

/-- The drive's `move(relative)`, which is `moveTo(_currentPos + relative)`. -/
def AccelStepper.move (st : AccelStepper) (relative : Int) : AccelStepper :=
  st.moveTo (wrapLong (st.currentPos + relative))

/-- The drive's `setCurrentPosition(position)`: counter and target are both set. -/
def AccelStepper.setCurrentPosition (st : AccelStepper) (position : Int) : AccelStepper :=
  { st with currentPos := position, targetPos := position }

/-- The drive's `runToPosition()`: blocks until the target is reached. -/
def AccelStepper.runToPosition (st : AccelStepper) : AccelStepper :=
  { st with currentPos := st.targetPos }

/-- The drive's `run()`: at most one step per call. -/
def AccelStepper.run (st : AccelStepper) (d : StepTaken) : AccelStepper :=
  { st with currentPos := wrapLong (st.currentPos + d.delta) }

/-- The drive's `runSpeed()`: at most one step per call. -/
def AccelStepper.runSpeed (st : AccelStepper) (d : StepTaken) : AccelStepper :=
  { st with currentPos := wrapLong (st.currentPos + d.delta) }

/-- The drive's `isRunning()`: speed nonzero (a braking distance exists) or target not reached. -/
def AccelStepper.isRunning (st : AccelStepper) (brake : Option Int) : Bool :=
  brake.isSome || decide (st.targetPos ≠ st.currentPos)

/-- The drive's `stop()`: with nonzero speed the target becomes the braking point. -/
def AccelStepper.stop (st : AccelStepper) (brake : Option Int) : AccelStepper :=
  match brake with
  | some k => st.move k
  | Option.none => st

/-! ## EEPROM -/

/-- Byte cells of the non-volatile store. -/
structure EEPROM where
  cell : Nat → Nat

/-- Byte `k` (little-endian) of the 32-bit representation of `v`. -/
def byteOf (v : Int) (k : Nat) : Nat := (toULong v / 256 ^ k) % 256

/-- The call `EEPROM.put(addr, v)` for a `long` value: four bytes from `addr`. -/
def EEPROM.put (m : EEPROM) (addr : Nat) (v : Int) : EEPROM :=
  { cell := fun a => if addr ≤ a ∧ a < addr + 4 then byteOf v (a - addr) else m.cell a }

/-- The call `EEPROM.get(addr, v)` for a `long` variable: four bytes from `addr`. -/
def EEPROM.get (m : EEPROM) (addr : Nat) : Int :=
  wrapLong (((m.cell addr % 256 + 256 * (m.cell (addr + 1) % 256)
    + 65536 * (m.cell (addr + 2) % 256) + 16777216 * (m.cell (addr + 3) % 256) : Nat) : Int))

def EEPROM_ABS_LOC_ADDR : Nat := 0
def EEPROM_HOME_LOC_ADDR : Nat := 4
def EEPROM_MIN_ADDR : Nat := 8
def EEPROM_MAX_ADDR : Nat := 12
def EEPROM_SPD_ADDR : Nat := 16
def EEPROM_ACC_ADDR : Nat := 20

/-! ## Global state -/

/-- What `Serial.println` is given: a text or a `long`. -/
inductive SerialOut where
  | text (s : String)
  | num (n : Int)
deriving DecidableEq, Repr

/-- The globals and function statics of `main.cpp`, the drive, the EEPROM and the output sinks. -/
structure State where
  stepper : AccelStepper
  timer1 : Timer
  timerB : Timer
  timerS : Timer
  absMinPosition : Int
  absMaxPosition : Int
  distancePerStep : Int
  homePosition : Int
  refPosition : Int
  speed : Int
  acceleration : Int
  button1State : Bool
  button2State : Bool
  button3State : Bool
  counter : Nat
  eeprom : EEPROM
  serial : List SerialOut
  screen : List (Option String)

/-- The globals as initialised at load time, before `setup()`, over a given EEPROM content. -/
def powerOn (rom : EEPROM) : State :=
  { stepper := { currentPos := 0, targetPos := 0 }
    timer1 := { interval := 500, previousMillis := 0 }
    timerB := { interval := 3000, previousMillis := 0 }
    timerS := { interval := 3000, previousMillis := 0 }
    absMinPosition := -9999999
    absMaxPosition := 9999999
    distancePerStep := 1
    homePosition := 0
    refPosition := 0
    speed := 32000000
    acceleration := 32000000
    button1State := false
    button2State := false
    button3State := false
    counter := 0
    eeprom := rom
    serial := []
    screen := [] }

/-- The function `inRange()`. -/
def inRange (s : State) : Bool :=
  decide (s.absMinPosition ≤ s.stepper.currentPos) && decide (s.stepper.currentPos ≤ s.absMaxPosition)

/-- The function `setHome()`. -/
def setHome (s : State) : State :=
  { s with homePosition := s.stepper.currentPos }

/-- The function `eepRead()`. -/
def eepRead (s : State) : State :=
  let s := { s with refPosition := s.eeprom.get EEPROM_ABS_LOC_ADDR }
  let s := { s with homePosition := s.eeprom.get EEPROM_HOME_LOC_ADDR }
  let s := { s with absMinPosition := s.eeprom.get EEPROM_MIN_ADDR }
  let s := { s with absMaxPosition := s.eeprom.get EEPROM_MAX_ADDR }
  let s := { s with speed := s.eeprom.get EEPROM_SPD_ADDR }
  let s := { s with acceleration := s.eeprom.get EEPROM_ACC_ADDR }
  { s with stepper := s.stepper.setCurrentPosition s.refPosition }

/-- The function `eepWrite()`. -/
def eepWrite (s : State) : State :=
  let s := { s with eeprom := s.eeprom.put EEPROM_ABS_LOC_ADDR s.stepper.currentPos }
  let s := { s with eeprom := s.eeprom.put EEPROM_HOME_LOC_ADDR s.homePosition }
  let s := { s with eeprom := s.eeprom.put EEPROM_MIN_ADDR s.absMinPosition }
  let s := { s with eeprom := s.eeprom.put EEPROM_MAX_ADDR s.absMaxPosition }
  let s := { s with eeprom := s.eeprom.put EEPROM_SPD_ADDR s.speed }
  { s with eeprom := s.eeprom.put EEPROM_ACC_ADDR s.acceleration }

/-- The function `setup()`: the record is read, the drive is configured, then `setHome()`. -/
def setup (s : State) : State :=
  setHome (eepRead s)

/-! ## Command line parsing -/

/-- The C library predicate `isspace`. -/
def isSpace (c : Char) : Bool :=
  c.toNat = 32 || (decide (9 ≤ c.toNat) && decide (c.toNat ≤ 13))

/-- The method `String::trim()`. -/
def trim (l : List Char) : List Char :=
  ((l.dropWhile isSpace).reverse.dropWhile isSpace).reverse

/-- The method `String::indexOf(ch)`; the value `-1` of the source is `none`. -/
def indexOf (ch : Char) : List Char → Option Nat
  | [] => none
  | c :: cs => if c = ch then some 0 else (indexOf ch cs).map (· + 1)

/-- The decimal digits read by `atol`, accumulated onto `acc`. -/
def digitsVal : List Char → Int → Int
  | [], acc => acc
  | c :: cs, acc =>
    if 48 ≤ c.toNat ∧ c.toNat ≤ 57 then digitsVal cs (acc * 10 + ((c.toNat - 48 : Nat) : Int))
    else acc

/-- The method `String::toInt()`, which is `atol`: blanks, an optional sign, digits. -/
def toInt (l : List Char) : Int :=
  match l.dropWhile isSpace with
  | [] => 0
  | c :: cs =>
    if c = '-' then wrapLong (-(digitsVal cs 0))
    else if c = '+' then wrapLong (digitsVal cs 0)
    else wrapLong (digitsVal (c :: cs) 0)

/-- Lines 146 to 158: the opcode token `cmd` and the argument `value` of a received line. -/
def parseCommand (line : List Char) : List Char × Int :=
  let command := trim line
  match indexOf (Char.ofNat 32) command with
  | none => (command, 0)
  | some valueIndex => (command.take valueIndex, toInt (command.drop (valueIndex + 1)))

/-- The expression `cmd[0]`: the first character, or NUL for the empty string. -/
def firstChar (cmd : List Char) : Char := cmd.headD (Char.ofNat 0)

/-! ## processSerialCommands -/

/-- The `switch (cmd[0])` of `processSerialCommands`. -/
def execCommand (op : Char) (value : Int) (s : State) : State :=
  if op = 'F' then
    let s := { s with stepper := s.stepper.move value }
    if inRange s then { s with stepper := s.stepper.runToPosition } else s
  else if op = 'B' then
    let s := { s with stepper := s.stepper.move (wrapLong (-value)) }
    if inRange s then { s with stepper := s.stepper.runToPosition } else s
  else if op = 'S' then
    { s with speed := value }
  else if op = 'A' then
    { s with serial := s.serial ++ [SerialOut.num s.stepper.currentPos] }
  else if op = 'R' then
    { s with serial := s.serial ++ [SerialOut.num (wrapLong (s.stepper.currentPos * s.distancePerStep))] }
  else if op = 'P' then
    let s := { s with stepper := s.stepper.moveTo value }
    if inRange s then { s with stepper := s.stepper.runToPosition } else s
  else if op = 'H' then
    { s with stepper := s.stepper.moveTo s.homePosition }
  else if op = 'C' then
    setHome s
  else if op = 'Z' then
    { s with stepper := s.stepper.setCurrentPosition 0 }
  else if op = 'M' then
    { s with speed := value }
  else if op = 'L' then
    { s with acceleration := value }
  else if op = 'D' then
    { s with distancePerStep := value }
  else if op = 'X' then
    { s with absMaxPosition := value }
  else if op = 'Y' then
    { s with absMinPosition := value }
  else if op = 'E' then
    eepWrite s
  else if op = 'G' then
    eepRead s
  else if op = 'T' then
    { s with timer1 := s.timer1.setInterval (toULong value) }
  else
    { s with serial := s.serial ++ [SerialOut.text "Invalid command."] }

/-- Lines 143 to 232: the block run when `Serial.available()`, on the line read. -/
def decodeLine (line : List Char) (s : State) : State :=
  execCommand (firstChar (parseCommand line).1) (parseCommand line).2 s

/-- Lines 234 to 241: the envelope correction. -/
def correctEnvelope (s : State) : State :=
  if s.stepper.currentPos < s.absMinPosition then
    { s with stepper := s.stepper.moveTo s.absMinPosition }
  else if s.stepper.currentPos > s.absMaxPosition then
    { s with stepper := s.stepper.moveTo s.absMaxPosition }
  else
    s

/-- Lines 243 and 244: one `run()` call, then the reference position is stored. -/
def runAndStoreRef (d : StepTaken) (s : State) : State :=
  let s := { s with stepper := s.stepper.run d }
  { s with refPosition := wrapLong (s.stepper.currentPos - s.homePosition) }

/-- The function `processSerialCommands()`; `input` is the received line, if one is available. -/
def processSerialCommands (input : Option (List Char)) (d : StepTaken) (s : State) : State :=
  let s := match input with
    | some line => decodeLine line s
    | none => s
  runAndStoreRef d (correctEnvelope s)

/-! ## Buttons and the calibration wizard -/

/-- One reading of the environment: the clock, the three buttons (true is pressed) and the
step the drive takes if `runSpeed()` is called. -/
structure Sample where
  now : Nat
  b1 : Bool
  b2 : Bool
  b3 : Bool
  step : StepTaken
deriving DecidableEq, Repr

/-- The message table `setState` of `setAbsMs`. -/
def setState : List String := ["Hold to set min!", "Hold to set max!", "Hold to exit!"]

/-- Lines 376 to 401: the block run when the hold timer of the wizard has elapsed. -/
def wizardAdvance (s : State) : State :=
  let s :=
    if s.counter = 0 then { s with absMinPosition := s.stepper.currentPos }
    else if s.counter = 1 then { s with absMaxPosition := s.stepper.currentPos }
    else if s.counter = 2 then
      let temp := s.absMinPosition
      let s :=
        if s.absMinPosition > s.absMaxPosition then
          { s with absMinPosition := s.absMaxPosition, absMaxPosition := temp }
        else s
      { s with homePosition := wrapLong (Int.tdiv s.absMinPosition 2 + Int.tdiv s.absMaxPosition 2) }
    else s
  let s := { s with counter := s.counter + 1 }
  { s with screen := s.screen ++ [setState.get? s.counter] }

/-- Lines 368 to 429: one iteration of the loop of `setAbsMs`. -/
def setAbsMsBody (i : Sample) (s : State) : State :=
  let s := { s with button1State := i.b1, button2State := i.b2, button3State := i.b3 }
  if s.button2State then
    let r := s.timerS.elapsed i.now
    let s := { s with timerS := r.2 }
    if r.1 then wizardAdvance s else s
  else if s.button1State then
    let s := { s with timerS := s.timerS.reset i.now }
    let s := { s with stepper := s.stepper.moveTo (-1000000000) }
    { s with stepper := s.stepper.runSpeed i.step }
  else if s.button3State then
    let s := { s with timerS := s.timerS.reset i.now }
    let s := { s with stepper := s.stepper.moveTo 1000000000 }
    { s with stepper := s.stepper.runSpeed i.step }
  else
    let s := { s with timerS := s.timerS.reset i.now }
    let s := { s with stepper := s.stepper.moveTo s.stepper.currentPos }
    { s with refPosition := wrapLong (s.stepper.currentPos - s.homePosition) }

/-- The function `setAbsMs()`: the loop runs on the successive readings of the environment;
`none` when the readings end while the loop is still waiting. -/
def setAbsMs : List Sample → State → Option State
  | [], s => if s.counter < 3 then none else some s
  | i :: rest, s => if s.counter < 3 then setAbsMs rest (setAbsMsBody i s) else some s

/-- Lines 281 to 330: the button sampling and the gesture branches of `updateButtons`;
`wiz` are the readings taken inside the wizard if it is entered. -/
def updateGesture (i : Sample) (wiz : List Sample) (s : State) : Option State :=
  let s := { s with button1State := i.b1, button2State := i.b2, button3State := i.b3 }
  if s.button1State && s.button3State then
    let r := s.timerB.elapsed i.now
    let s := { s with timerB := r.2 }
    if r.1 then
      let s := eepWrite s
      some { s with screen := s.screen ++ [some "Data saved"] }
    else some s
  else if s.button2State then
    let r := s.timerB.elapsed i.now
    let s := { s with timerB := r.2 }
    if r.1 then
      setAbsMs wiz { s with screen := s.screen ++ [some "Set min position"] }
    else some s
  else if s.button1State && inRange s then
    let s := { s with timerB := s.timerB.reset i.now }
    let s := { s with stepper := s.stepper.moveTo s.absMinPosition }
    some { s with stepper := s.stepper.runSpeed i.step }
  else if s.button3State && inRange s then
    let s := { s with timerB := s.timerB.reset i.now }
    let s := { s with stepper := s.stepper.moveTo s.absMaxPosition }
    some { s with stepper := s.stepper.runSpeed i.step }
  else
    let s := { s with timerB := s.timerB.reset i.now }
    let s := { s with stepper := s.stepper.moveTo s.stepper.currentPos }
    some { s with refPosition := wrapLong (s.stepper.currentPos - s.homePosition) }

/-- Lines 332 to 339: while `button2State` holds, the drive is braked and home is pinned. -/
def pinHome (brake : Option Int) (s : State) : State :=
  if s.button2State then
    let s := if s.stepper.isRunning brake then { s with stepper := s.stepper.stop brake } else s
    setHome s
  else s

/-- The function `updateButtons()`. -/
def updateButtons (i : Sample) (wiz : List Sample) (brake : Option Int) (s : State) : Option State :=
  (updateGesture i wiz s).map (pinHome brake)

/-- The function `loop()`, without the display and LED sinks: `now1` is the clock read by
`timer1.elapsed()`. -/
def loop (input : Option (List Char)) (d : StepTaken) (now1 : Nat) (i : Sample)
    (wiz : List Sample) (brake : Option Int) (s : State) : Option State :=
  let s := processSerialCommands input d s
  let s := { s with timer1 := (s.timer1.elapsed now1).2 }
  updateButtons i wiz brake s

/-! ## The parsing contract in the words of the specification -/

/-- The decimal digits `0` to `9`. -/
def isDigitChar (c : Char) : Bool :=
  decide (48 ≤ c.toNat) && decide (c.toNat ≤ 57)

/-- Base-10 value of a string of digits, most significant digit first. -/
def decimalValue : List Char → Nat
  | [] => 0
  | c :: cs => (c.toNat - 48) * 10 ^ cs.length + decimalValue cs

/-- The text starts with a number: after leading blanks, an optional sign and then a digit. -/
def startsWithNumber (text : List Char) : Bool :=
  match text.dropWhile isSpace with
  | [] => false
  | c :: cs =>
    if c = '-' ∨ c = '+' then
      match cs with
      | [] => false
      | d :: _ => isDigitChar d
    else isDigitChar c

/-- The argument as the specification words it: the signed base-10 integer the text starts
with, and 0 when the text does not start with a number. -/
def specArgument (text : List Char) : Int :=
  if startsWithNumber text then
    match text.dropWhile isSpace with
    | [] => 0
    | c :: cs =>
      if c = '-' then -((decimalValue (cs.takeWhile isDigitChar) : Nat) : Int)
      else if c = '+' then ((decimalValue (cs.takeWhile isDigitChar) : Nat) : Int)
      else ((decimalValue ((c :: cs).takeWhile isDigitChar) : Nat) : Int)
  else 0

/-- Opcode and argument as the specification words them: on the trimmed line, the first
character of the text before the first space (of the whole line when there is no space), and
the number after the first space, 0 when there is no space. -/
def specCommand (line : List Char) : Char × Int :=
  if Char.ofNat 32 ∈ trim line then
    (firstChar ((trim line).takeWhile (fun c => c != Char.ofNat 32)),
      specArgument (((trim line).dropWhile (fun c => c != Char.ofNat 32)).drop 1))
  else
    (firstChar (trim line), 0)

/-! ## Runs of control cycles -/

/-- Successive `updateButtons` calls on the given readings: the button half of the control
cycle alone, with `isRunning()` / `stop()` evaluated for a drive at zero speed; a cycle that
enters the wizard gets no readings of its own.  `buttonCyclesWith` takes the braking
distances and `loopCycles` runs whole passes of `loop()`. -/
def buttonCycles : List Sample → State → Option State
  | [], s => some s
  | i :: rest, s => (updateButtons i [] Option.none s).bind (buttonCycles rest)

/-- The state with the drive's target replaced by `t`. -/
def withTarget (t : Int) (s : State) : State :=
  { s with stepper := { s.stepper with targetPos := t } }

/-- Successive `updateButtons` calls on the given readings, each with the braking distance
the drive reports in that cycle; a cycle that enters the wizard gets no readings of its own. -/
def buttonCyclesWith : List (Sample × Option Int) → State → Option State
  | [], s => some s
  | ib :: rest, s => (updateButtons ib.1 [] ib.2 s).bind (buttonCyclesWith rest)

/-- The inputs of one pass of `loop()`: the received line if any, the step taken by `run()`,
the clock read by `timer1`, the reading of `updateButtons`, the readings inside the wizard
and the braking distance of the drive. -/
structure Cycle where
  input : Option (List Char)
  d : StepTaken
  now1 : Nat
  i : Sample
  wiz : List Sample
  brake : Option Int

/-- Successive passes of `loop()`. -/
def loopCycles : List Cycle → State → Option State
  | [], s => some s
  | c :: rest, s => (loop c.input c.d c.now1 c.i c.wiz c.brake s).bind (loopCycles rest)

/-- A pass of `loop()` with no serial input and no step in `run()`. -/
def quietCycle (i : Sample) (wiz : List Sample) (brake : Option Int) : Cycle :=
  { input := Option.none, d := StepTaken.none, now1 := i.now, i := i, wiz := wiz, brake := brake }

/-! ## Concrete states used in the evaluations -/

/-- An erased EEPROM: every cell reads 255. -/
def blankRom : EEPROM := { cell := fun _ => 255 }

/-- A state with limits 0 and 500 whose position was forced to 600. -/
def envelopeAbove : State :=
  { powerOn blankRom with
    absMinPosition := 0, absMaxPosition := 500, stepper := { currentPos := 600, targetPos := 600 } }

/-- A state with the inverted envelope min 10, max 0 and the position 2. -/
def envelopeInverted : State :=
  { powerOn blankRom with
    absMinPosition := 10, absMaxPosition := 0, stepper := { currentPos := 2, targetPos := 2 } }

/-- A state at rest at position 0 with limits 0 and 500. -/
def clampStart : State :=
  { powerOn blankRom with absMinPosition := 0, absMaxPosition := 500 }

/-- A wizard state about to compute home, with the captured bounds 10 and 200. -/
def homeScenario : State :=
  { powerOn blankRom with counter := 2, absMinPosition := 10, absMaxPosition := 200 }

/-- A wizard state about to compute home, with the captured bounds 1 and 3. -/
def homeOddBounds : State :=
  { powerOn blankRom with counter := 2, absMinPosition := 1, absMaxPosition := 3 }

/-- A state at rest at position 10, before the wizard has ever run; the hold timer of
`updateButtons` was last reset at clock 2000. -/
def wizardStart : State :=
  { powerOn blankRom with
    stepper := { currentPos := 10, targetPos := 10 }
    timerB := { interval := 3000, previousMillis := 2000 } }

/-- The reading of `updateButtons` that enters the wizard: button 2 alone, clock 5000. -/
def wizardEntry : Sample :=
  { now := 5000, b1 := false, b2 := true, b3 := false, step := StepTaken.none }

/-- A reading with button 2 held at clock `t`. -/
def holdAt (t : Nat) : Sample :=
  { now := t, b1 := false, b2 := true, b3 := false, step := StepTaken.none }

/-- A reading with button 3 held at clock `t`, the drive stepping forward. -/
def jogUpAt (t : Nat) : Sample :=
  { now := t, b1 := false, b2 := false, b3 := true, step := StepTaken.cw }

/-- Readings inside the wizard: release, hold 3 s at 10, jog ten steps up, hold 3 s at 20,
keep holding 3 s. -/
def wizardRun : List Sample :=
  [ { now := 8000, b1 := false, b2 := false, b3 := false, step := StepTaken.none },
    holdAt 8100, holdAt 11100,
    jogUpAt 12100, jogUpAt 12110, jogUpAt 12120, jogUpAt 12130, jogUpAt 12140,
    jogUpAt 12150, jogUpAt 12160, jogUpAt 12170, jogUpAt 12180, jogUpAt 12190,
    holdAt 12200, holdAt 15200, holdAt 16300, holdAt 19200 ]

/-- A state whose six persisted fields are pairwise different, two of them negative. -/
def recordSample : State :=
  { powerOn blankRom with
    stepper := { currentPos := 40, targetPos := 70 }
    homePosition := 12
    absMinPosition := -2147483648
    absMaxPosition := 2147483647
    speed := -1
    acceleration := 65536 }

/-- The globals at load time over the EEPROM that `recordSample` has saved. -/
def rebooted : State := powerOn (eepWrite recordSample).eeprom

/-- A state with the position 5, home 0 and the stored reference position 5. -/
def refStart : State :=
  { powerOn blankRom with stepper := { currentPos := 5, targetPos := 5 }, refPosition := 5 }

/-- A state with the position 7, home 2 and the distance scale 3. -/
def scaledState : State :=
  { powerOn blankRom with
    stepper := { currentPos := 7, targetPos := 7 }, homePosition := 2, distancePerStep := 3 }

/-- The opcodes of the command table. -/
def knownOpcodes : List Char :=
  ['F', 'B', 'S', 'A', 'R', 'P', 'H', 'C', 'Z', 'M', 'L', 'D', 'X', 'Y', 'E', 'G', 'T']

/-- A reading with no button pressed at clock `t`. -/
def idleAt (t : Nat) : Sample :=
  { now := t, b1 := false, b2 := false, b3 := false, step := StepTaken.none }

/-- A reading with buttons 1 and 3 pressed and button 2 released at clock `t`. -/
def bothAt (t : Nat) : Sample :=
  { now := t, b1 := true, b2 := false, b3 := true, step := StepTaken.none }

/-- A reading with button 1 held at clock `t`, the drive stepping backward. -/
def jogDownAt (t : Nat) : Sample :=
  { now := t, b1 := true, b2 := false, b3 := false, step := StepTaken.ccw }

/-- Cycles after power-on: idle at 100, then button 2 alone held from 200 to 3000. -/
def button2Hold : List Sample :=
  [idleAt 100, holdAt 200, holdAt 1000, holdAt 2000, holdAt 3000]

/-- Readings inside the wizard when button 2 is simply kept pressed after the entry. -/
def eagerRun : List Sample :=
  [holdAt 8000, holdAt 9000, holdAt 10000]

/-- The state in which the cycle that ran the wizard on `wizardRun` ends. -/
def afterWizard : State :=
  (updateButtons wizardEntry wizardRun Option.none wizardStart).getD wizardStart

/-- Cycles after the first wizard run: release at 21000, five jog steps down, and button 2
held from 21200 to 24000. -/
def beforeSecondEntry : State :=
  (buttonCycles
    [idleAt 21000, jogDownAt 21100, jogDownAt 21110, jogDownAt 21120, jogDownAt 21130,
      jogDownAt 21140, holdAt 21200, holdAt 22000, holdAt 23000, holdAt 24000]
    afterWizard).getD afterWizard

/-- A state at rest at 0 (inside the default limits) whose home is 50. -/
def homeRequest : State :=
  { powerOn blankRom with homePosition := 50 }

/-- A timer whose `previousMillis` is 296 ms before the clock wraps. -/
def lateTimer : Timer := { interval := 3000, previousMillis := 4294967000 }

/-- The state in which an `updateButtons` cycle with button 2 pressed at clock 1000 leaves
`refStart`. -/
def pinnedState : State :=
  (updateButtons (holdAt 1000) [] Option.none refStart).getD refStart

/-- The readings of `button2Hold` followed by buttons 1 and 3 at 3100, as whole passes of
`loop()` with the drive at rest. -/
def button2HoldLoop : List Cycle :=
  (button2Hold ++ [bothAt 3100]).map (fun i => quietCycle i [] Option.none)

/-- After the first wizard run, as whole passes of `loop()`: release, five jog steps down,
button 2 pressed while the drive still moves backward (braking distance 2), button 2 held
until the hold elapses at 24200, the wizard then being offered the readings `wizardRun`. -/
def secondEntryLoop : List Cycle :=
  [ quietCycle (idleAt 21000) [] Option.none,
    quietCycle (jogDownAt 21100) [] Option.none, quietCycle (jogDownAt 21110) [] Option.none,
    quietCycle (jogDownAt 21120) [] Option.none, quietCycle (jogDownAt 21130) [] Option.none,
    quietCycle (jogDownAt 21140) [] Option.none,
    quietCycle (holdAt 21200) [] (some (-2)), quietCycle (holdAt 22000) [] Option.none,
    quietCycle (holdAt 23000) [] Option.none, quietCycle (holdAt 24000) [] Option.none,
    quietCycle (holdAt 24200) wizardRun Option.none ]

/-! ## General lemmas -/

theorem wrapLong_of_isLong {x : Int} (h : isLong x) : wrapLong x = x := by
  unfold isLong at h
  unfold wrapLong
  omega

theorem isLong_wrapLong (x : Int) : isLong (wrapLong x) := by
  unfold isLong wrapLong
  omega

theorem tdiv_two_cases (a : Int) :
    (0 ≤ a ∧ Int.tdiv a 2 = a / 2) ∨ (a < 0 ∧ Int.tdiv a 2 = -((-a) / 2)) := by
  by_cases h : 0 ≤ a
  · exact Or.inl ⟨h, Int.tdiv_eq_ediv h (by decide)⟩
  · right
    refine ⟨by omega, ?_⟩
    have h1 : Int.tdiv (-(-a)) 2 = -(Int.tdiv (-a) 2) := Int.neg_tdiv (-a) 2
    rw [neg_neg] at h1
    rw [h1, Int.tdiv_eq_ediv (by omega) (by decide)]

theorem trim_head_not_space (l : List Char) (c : Char) (rest : List Char)
    (h : trim l = c :: rest) : isSpace c = false := by
  have hp : trim l <+: l.dropWhile isSpace := by
    unfold trim
    have h1 := List.dropWhile_suffix isSpace (l := (l.dropWhile isSpace).reverse)
    have h2 := List.reverse_prefix.mpr h1
    rwa [List.reverse_reverse] at h2
  rw [h] at hp
  obtain ⟨t, ht⟩ := hp
  have h3 := List.head?_dropWhile_not isSpace l
  rw [← ht] at h3
  simpa using h3

theorem firstChar_parseCommand (line : List Char) :
    firstChar (parseCommand line).1 = firstChar (trim line) := by
  unfold parseCommand
  cases h : trim line with
  | nil => simp [indexOf]
  | cons c rest =>
    have hs := trim_head_not_space line c rest h
    have hc : c ≠ Char.ofNat 32 := by
      intro e
      rw [e] at hs
      exact absurd hs (by decide)
    simp only [indexOf, if_neg hc]
    cases indexOf (Char.ofNat 32) rest with
    | none => rfl
    | some k => rfl

theorem correctEnvelope_currentPos (s : State) :
    (correctEnvelope s).stepper.currentPos = s.stepper.currentPos := by
  unfold correctEnvelope
  split_ifs <;> rfl

/-! ## C1: envelope correction -/

/-- C1, as stated, fails on an inverted envelope: with minLimit 10, maxLimit 0 and the
position 2, the position is above maxLimit and nearer to it, yet the pass targets minLimit. -/
theorem correctEnvelope_inverted_counterexample :
    envelopeInverted.stepper.currentPos > envelopeInverted.absMaxPosition ∧
    ¬ (envelopeInverted.absMinPosition ≤ envelopeInverted.stepper.currentPos ∧
       envelopeInverted.stepper.currentPos ≤ envelopeInverted.absMaxPosition) ∧
    |envelopeInverted.absMaxPosition - envelopeInverted.stepper.currentPos|
      < |envelopeInverted.absMinPosition - envelopeInverted.stepper.currentPos| ∧
    (correctEnvelope envelopeInverted).stepper.targetPos = 10 ∧
    (correctEnvelope envelopeInverted).stepper.targetPos ≠ envelopeInverted.absMaxPosition := by
  decide

/-- C1 (amended): one correction pass sets the target to minLimit when the position is below
minLimit, and to maxLimit when it is above maxLimit and not below minLimit; when
minLimit <= maxLimit that target is the nearest bound; a position inside the envelope leaves
the whole state unchanged, and a second pass never changes what the first one produced. -/
theorem correctEnvelope_target (s : State) :
    (s.stepper.currentPos < s.absMinPosition →
      (correctEnvelope s).stepper.targetPos = s.absMinPosition) ∧
    (s.absMinPosition ≤ s.stepper.currentPos → s.absMaxPosition < s.stepper.currentPos →
      (correctEnvelope s).stepper.targetPos = s.absMaxPosition) ∧
    (s.absMinPosition ≤ s.absMaxPosition →
      ¬ (s.absMinPosition ≤ s.stepper.currentPos ∧ s.stepper.currentPos ≤ s.absMaxPosition) →
      |(correctEnvelope s).stepper.targetPos - s.stepper.currentPos|
          ≤ |s.absMinPosition - s.stepper.currentPos| ∧
      |(correctEnvelope s).stepper.targetPos - s.stepper.currentPos|
          ≤ |s.absMaxPosition - s.stepper.currentPos|) ∧
    (s.absMinPosition ≤ s.stepper.currentPos → s.stepper.currentPos ≤ s.absMaxPosition →
      correctEnvelope s = s) ∧
    correctEnvelope (correctEnvelope s) = correctEnvelope s := by
  refine ⟨?_, ?_, ?_, ?_, ?_⟩
  · intro h
    simp [correctEnvelope, h, AccelStepper.moveTo]
  · intro h1 h2
    simp [correctEnvelope, not_lt.mpr h1, h2, AccelStepper.moveTo]
  · intro hle hout
    by_cases h1 : s.stepper.currentPos < s.absMinPosition
    · simp only [correctEnvelope, h1, if_true, AccelStepper.moveTo]
      constructor
      · exact le_refl _
      · rw [abs_of_pos (by omega), abs_of_pos (by omega)]; omega
    · have h2 : s.stepper.currentPos > s.absMaxPosition := by omega
      simp only [correctEnvelope, h1, if_false, h2, if_true, AccelStepper.moveTo]
      constructor
      · rw [abs_of_neg (by omega), abs_of_neg (by omega)]; omega
      · exact le_refl _
  · intro h1 h2
    simp [correctEnvelope, not_lt.mpr h1, not_lt.mpr h2]
  · unfold correctEnvelope
    split_ifs with h1 h2
    all_goals simp_all [AccelStepper.moveTo]
    omega

/-- C1 at the scenario of the specification: limits 0 and 500, position 600, target 500. -/
theorem correctEnvelope_target_witness :
    (correctEnvelope envelopeAbove).stepper.targetPos = 500 :=
  (correctEnvelope_target envelopeAbove).2.1 (by decide) (by decide)

/-! ## C2: blocking moves and the envelope -/

/-- C2 at a failing input: from the in-range state at rest at 0 with limits 0 and 500, a
control cycle that decodes P 600 or F 600 ends with the position at 599, 600 or 601, above
maxLimit, and one that decodes B 600 ends below minLimit, whatever step the trailing run()
call takes; the correction pass has only moved the target to the bound. -/
theorem blocking_move_leaves_envelope (d : StepTaken) :
    inRange clampStart = true ∧
    clampStart.absMaxPosition <
      (processSerialCommands (some ['P', Char.ofNat 32, '6', '0', '0']) d clampStart).stepper.currentPos ∧
    (processSerialCommands (some ['P', Char.ofNat 32, '6', '0', '0']) d clampStart).stepper.targetPos = 500 ∧
    clampStart.absMaxPosition <
      (processSerialCommands (some ['F', Char.ofNat 32, '6', '0', '0']) d clampStart).stepper.currentPos ∧
    (processSerialCommands (some ['B', Char.ofNat 32, '6', '0', '0']) d clampStart).stepper.currentPos
      < clampStart.absMinPosition := by
  cases d <;> decide

/-! ## C3: the home offset computed by the wizard -/

/-- C3, as stated, fails when both bounds are odd: with the bounds 1 and 3 the third advance
sets homeOffset to 1, while the truncated quotient of the sum is 2. -/
theorem wizardAdvance_midpoint_counterexample :
    homeOddBounds.counter = 2 ∧
    (wizardAdvance homeOddBounds).absMinPosition = 1 ∧
    (wizardAdvance homeOddBounds).absMaxPosition = 3 ∧
    (wizardAdvance homeOddBounds).homePosition = 1 ∧
    (wizardAdvance homeOddBounds).homePosition ≠
      Int.tdiv ((wizardAdvance homeOddBounds).absMinPosition
        + (wizardAdvance homeOddBounds).absMaxPosition) 2 := by
  decide

theorem wizardAdvance_two (s : State) (hc : s.counter = 2) :
    (wizardAdvance s).absMinPosition = min s.absMinPosition s.absMaxPosition ∧
    (wizardAdvance s).absMaxPosition = max s.absMinPosition s.absMaxPosition ∧
    (wizardAdvance s).homePosition =
      wrapLong (Int.tdiv (min s.absMinPosition s.absMaxPosition) 2
        + Int.tdiv (max s.absMinPosition s.absMaxPosition) 2) ∧
    (wizardAdvance s).counter = 3 := by
  unfold wizardAdvance
  by_cases h : s.absMinPosition > s.absMaxPosition
  · have h1 : min s.absMinPosition s.absMaxPosition = s.absMaxPosition := min_eq_right (le_of_lt h)
    have h2 : max s.absMinPosition s.absMaxPosition = s.absMinPosition := max_eq_left (le_of_lt h)
    simp [hc, h, h1, h2]
  · have h1 : min s.absMinPosition s.absMaxPosition = s.absMinPosition := min_eq_left (not_lt.mp h)
    have h2 : max s.absMinPosition s.absMaxPosition = s.absMaxPosition := max_eq_right (not_lt.mp h)
    simp [hc, h, h1, h2]

/-- C3 (amended): the third wizard advance sets homeOffset to minLimit / 2 + maxLimit / 2,
each quotient an integer division truncating toward zero, where minLimit and maxLimit are the
bounds after the swap; this is within one step of the truncated quotient of the sum. -/
theorem wizardAdvance_home (s : State) (hc : s.counter = 2)
    (hmin : isLong s.absMinPosition) (hmax : isLong s.absMaxPosition) :
    (wizardAdvance s).homePosition =
      Int.tdiv (wizardAdvance s).absMinPosition 2 + Int.tdiv (wizardAdvance s).absMaxPosition 2 ∧
    |(wizardAdvance s).homePosition
      - Int.tdiv ((wizardAdvance s).absMinPosition + (wizardAdvance s).absMaxPosition) 2| ≤ 1 := by
  obtain ⟨e1, e2, e3, _⟩ := wizardAdvance_two s hc
  rw [e1, e2, e3]
  have hm : isLong (min s.absMinPosition s.absMaxPosition) := by
    rcases min_choice s.absMinPosition s.absMaxPosition with h | h <;> rw [h] <;> assumption
  have hM : isLong (max s.absMinPosition s.absMaxPosition) := by
    rcases max_choice s.absMinPosition s.absMaxPosition with h | h <;> rw [h] <;> assumption
  generalize min s.absMinPosition s.absMaxPosition = a at hm
  generalize max s.absMinPosition s.absMaxPosition = b at hM
  unfold isLong at hm hM
  have hw : wrapLong (Int.tdiv a 2 + Int.tdiv b 2) = Int.tdiv a 2 + Int.tdiv b 2 := by
    apply wrapLong_of_isLong
    unfold isLong
    rcases tdiv_two_cases a with ⟨_, ha⟩ | ⟨_, ha⟩ <;>
      rcases tdiv_two_cases b with ⟨_, hb⟩ | ⟨_, hb⟩ <;> rw [ha, hb] <;> omega
  rw [hw]
  refine ⟨rfl, ?_⟩
  rw [abs_le]
  rcases tdiv_two_cases a with ⟨_, ha⟩ | ⟨_, ha⟩ <;>
    rcases tdiv_two_cases b with ⟨_, hb⟩ | ⟨_, hb⟩ <;>
    rcases tdiv_two_cases (a + b) with ⟨_, hab⟩ | ⟨_, hab⟩ <;>
    rw [ha, hb, hab] <;> omega

/-- C3 at the scenario of the specification: the bounds 10 and 200 give homeOffset 105. -/
theorem wizardAdvance_home_witness :
    homeScenario.counter = 2 ∧ (wizardAdvance homeScenario).absMinPosition = 10 ∧
    (wizardAdvance homeScenario).absMaxPosition = 200 ∧
    (wizardAdvance homeScenario).homePosition = 105 :=
  ⟨by decide, by decide, by decide,
    (wizardAdvance_home homeScenario (by decide) (by decide) (by decide)).1.trans (by decide)⟩

/-! ## C4: the home offset at the end of the cycle that ran the wizard -/

/-- C4 at a failing input: button 2 held from clock 5000 enters the wizard; inside it the
user captures 10, jogs to 20, captures 20 and holds once more.  The wizard returns with
homeOffset 15, the midpoint of the limits 10 and 20, and the same updateButtons cycle ends
with homeOffset 20, the current position, because button2State is still set. -/
theorem wizard_home_overwritten :
    (updateGesture wizardEntry wizardRun wizardStart).map
        (fun s => (s.counter, s.absMinPosition, s.absMaxPosition, s.homePosition, s.button2State))
      = some (3, 10, 20, 15, true) ∧
    (updateButtons wizardEntry wizardRun Option.none wizardStart).map
        (fun s => (s.counter, s.absMinPosition, s.absMaxPosition, s.homePosition,
          s.stepper.currentPos))
      = some (3, 10, 20, 20, 20) := by
  decide

theorem setAbsMs_done (ins : List Sample) (s : State) (h : ¬ s.counter < 3) :
    setAbsMs ins s = some s := by
  cases ins <;> simp [setAbsMs, h]

theorem wizardAdvance_counter (s : State) : (wizardAdvance s).counter = s.counter + 1 := by
  unfold wizardAdvance
  split_ifs <;> rfl

theorem wizardAdvance_zero (s : State) (hc : s.counter = 0) :
    (wizardAdvance s).absMinPosition = s.stepper.currentPos ∧ (wizardAdvance s).counter = 1 := by
  unfold wizardAdvance
  simp [hc]

theorem wizardAdvance_one (s : State) (hc : s.counter = 1) :
    (wizardAdvance s).absMinPosition = s.absMinPosition ∧
    (wizardAdvance s).absMaxPosition = s.stepper.currentPos ∧ (wizardAdvance s).counter = 2 := by
  unfold wizardAdvance
  simp [hc]

theorem wizardAdvance_ordered (s : State) (hc : s.counter = 2) :
    (wizardAdvance s).absMinPosition ≤ (wizardAdvance s).absMaxPosition := by
  obtain ⟨e1, e2, _, _⟩ := wizardAdvance_two s hc
  rw [e1, e2]
  exact min_le_max

theorem setAbsMsBody_cases (i : Sample) (s : State) :
    (setAbsMsBody i s).counter = s.counter ∨
    ∃ t : State, t.counter = s.counter ∧ setAbsMsBody i s = wizardAdvance t := by
  unfold setAbsMsBody
  dsimp only
  split_ifs <;> first | exact Or.inl rfl | exact Or.inr ⟨_, And.symm ⟨rfl, rfl⟩⟩

theorem setAbsMs_ordered (ins : List Sample) :
    ∀ s r : State, s.counter < 3 → setAbsMs ins s = some r →
      r.absMinPosition ≤ r.absMaxPosition ∧ r.counter = 3 := by
  induction ins with
  | nil =>
    intro s r hs h
    simp [setAbsMs, hs] at h
  | cons i rest ih =>
    intro s r hs h
    simp only [setAbsMs, hs, if_true] at h
    rcases setAbsMsBody_cases i s with hk | ⟨t, ht, he⟩
    · exact ih _ r (by omega) h
    · by_cases h2 : s.counter = 2
      · have hc3 : (setAbsMsBody i s).counter = 3 := by
          rw [he, wizardAdvance_counter]; omega
        rw [setAbsMs_done rest _ (by omega)] at h
        have hr : setAbsMsBody i s = r := Option.some.inj h
        rw [← hr]
        refine ⟨?_, hc3⟩
        rw [he]
        exact wizardAdvance_ordered t (by omega)
      · refine ih _ r ?_ h
        rw [he, wizardAdvance_counter]
        omega

/-! ## C5: the limits after the wizard -/

/-- C5: when a is the position at the first advance and b the position at the second one
(the drive may move in between), after the third advance minLimit = min a b,
maxLimit = max a b and minLimit <= maxLimit; and every run of the wizard loop that
returns does so with minLimit <= maxLimit, whatever the limits were before. -/
theorem wizard_limits_ordered (s : State) (st2 st3 : AccelStepper) (hc : s.counter = 0) :
    (wizardAdvance { wizardAdvance { wizardAdvance s with stepper := st2 } with stepper := st3 }).absMinPosition
      = min s.stepper.currentPos st2.currentPos ∧
    (wizardAdvance { wizardAdvance { wizardAdvance s with stepper := st2 } with stepper := st3 }).absMaxPosition
      = max s.stepper.currentPos st2.currentPos ∧
    (wizardAdvance { wizardAdvance { wizardAdvance s with stepper := st2 } with stepper := st3 }).absMinPosition
      ≤ (wizardAdvance { wizardAdvance { wizardAdvance s with stepper := st2 } with stepper := st3 }).absMaxPosition ∧
    (∀ (ins : List Sample) (r : State), setAbsMs ins s = some r →
      r.absMinPosition ≤ r.absMaxPosition) := by
  obtain ⟨a1, a2⟩ := wizardAdvance_zero s hc
  generalize wizardAdvance s = t1 at a1 a2
  have c1 : ({ t1 with stepper := st2 } : State).counter = 1 := a2
  obtain ⟨b1, b2, b3⟩ := wizardAdvance_one { t1 with stepper := st2 } c1
  have b1' : (wizardAdvance { t1 with stepper := st2 }).absMinPosition = s.stepper.currentPos :=
    b1.trans a1
  have b2' : (wizardAdvance { t1 with stepper := st2 }).absMaxPosition = st2.currentPos := b2
  generalize wizardAdvance { t1 with stepper := st2 } = t2 at b1' b2' b3
  have c2 : ({ t2 with stepper := st3 } : State).counter = 2 := b3
  obtain ⟨e1, e2, _, _⟩ := wizardAdvance_two { t2 with stepper := st3 } c2
  have m2 : ({ t2 with stepper := st3 } : State).absMinPosition = s.stepper.currentPos := b1'
  have M2 : ({ t2 with stepper := st3 } : State).absMaxPosition = st2.currentPos := b2'
  refine ⟨?_, ?_, ?_, ?_⟩
  · rw [e1, m2, M2]
  · rw [e2, m2, M2]
  · rw [e1, e2]; exact min_le_max
  · intro ins r h
    exact (setAbsMs_ordered ins s r (by omega) h).1

/-- C5 at the captures 200 then 10: the limits come out as 10 and 200. -/
theorem wizard_limits_ordered_witness :
    (wizardAdvance { wizardAdvance { wizardAdvance
        { powerOn blankRom with stepper := { currentPos := 200, targetPos := 200 } }
        with stepper := { currentPos := 10, targetPos := 10 } }
        with stepper := { currentPos := 10, targetPos := 10 } }).absMinPosition = 10 ∧
    (wizardAdvance { wizardAdvance { wizardAdvance
        { powerOn blankRom with stepper := { currentPos := 200, targetPos := 200 } }
        with stepper := { currentPos := 10, targetPos := 10 } }
        with stepper := { currentPos := 10, targetPos := 10 } }).absMaxPosition = 200 :=
  ⟨(wizard_limits_ordered { powerOn blankRom with stepper := { currentPos := 200, targetPos := 200 } }
      { currentPos := 10, targetPos := 10 } { currentPos := 10, targetPos := 10 } rfl).1.trans
      (by decide),
   (wizard_limits_ordered { powerOn blankRom with stepper := { currentPos := 200, targetPos := 200 } }
      { currentPos := 10, targetPos := 10 } { currentPos := 10, targetPos := 10 } rfl).2.1.trans
      (by decide)⟩

/-! ## C6: persistence round trip -/

theorem decode_bytes (v : Int) (h : isLong v) :
    wrapLong (((byteOf v 0 % 256 + 256 * (byteOf v 1 % 256) + 65536 * (byteOf v 2 % 256)
      + 16777216 * (byteOf v 3 % 256) : Nat) : Int)) = v := by
  unfold isLong at h
  unfold wrapLong byteOf toULong
  norm_num
  omega

theorem get_put_same (m : EEPROM) (addr : Nat) (v : Int) (h : isLong v) :
    (m.put addr v).get addr = v := by
  have := decode_bytes v h
  simpa [EEPROM.get, EEPROM.put] using this

theorem get_put_other (m : EEPROM) (addr b : Nat) (v : Int) (h : addr + 4 ≤ b ∨ b + 4 ≤ addr) :
    (m.put addr v).get b = m.get b := by
  have c0 : ¬ (addr ≤ b ∧ b < addr + 4) := by omega
  have c1 : ¬ (addr ≤ b + 1 ∧ b + 1 < addr + 4) := by omega
  have c2 : ¬ (addr ≤ b + 2 ∧ b + 2 < addr + 4) := by omega
  have c3 : ¬ (addr ≤ b + 3 ∧ b + 3 < addr + 4) := by omega
  simp only [EEPROM.get, EEPROM.put, if_neg c0, if_neg c1, if_neg c2, if_neg c3]

theorem eepWrite_eeprom (s : State) :
    (eepWrite s).eeprom =
      (((((s.eeprom.put EEPROM_ABS_LOC_ADDR s.stepper.currentPos).put EEPROM_HOME_LOC_ADDR
        s.homePosition).put EEPROM_MIN_ADDR s.absMinPosition).put EEPROM_MAX_ADDR
        s.absMaxPosition).put EEPROM_SPD_ADDR s.speed).put EEPROM_ACC_ADDR s.acceleration :=
  rfl

theorem eepRead_fields (t : State) :
    (eepRead t).stepper.currentPos = t.eeprom.get EEPROM_ABS_LOC_ADDR ∧
    (eepRead t).stepper.targetPos = t.eeprom.get EEPROM_ABS_LOC_ADDR ∧
    (eepRead t).refPosition = t.eeprom.get EEPROM_ABS_LOC_ADDR ∧
    (eepRead t).homePosition = t.eeprom.get EEPROM_HOME_LOC_ADDR ∧
    (eepRead t).absMinPosition = t.eeprom.get EEPROM_MIN_ADDR ∧
    (eepRead t).absMaxPosition = t.eeprom.get EEPROM_MAX_ADDR ∧
    (eepRead t).speed = t.eeprom.get EEPROM_SPD_ADDR ∧
    (eepRead t).acceleration = t.eeprom.get EEPROM_ACC_ADDR :=
  ⟨rfl, rfl, rfl, rfl, rfl, rfl, rfl, rfl⟩

theorem eepRead_of_written (s t : State) (ht : t.eeprom = (eepWrite s).eeprom)
    (h1 : isLong s.stepper.currentPos) (h2 : isLong s.homePosition)
    (h3 : isLong s.absMinPosition) (h4 : isLong s.absMaxPosition)
    (h5 : isLong s.speed) (h6 : isLong s.acceleration) :
    (eepRead t).stepper.currentPos = s.stepper.currentPos ∧
    (eepRead t).homePosition = s.homePosition ∧
    (eepRead t).absMinPosition = s.absMinPosition ∧
    (eepRead t).absMaxPosition = s.absMaxPosition ∧
    (eepRead t).speed = s.speed ∧
    (eepRead t).acceleration = s.acceleration := by
  obtain ⟨r1, _, _, r2, r3, r4, r5, r6⟩ := eepRead_fields t
  rw [r1, r2, r3, r4, r5, r6, ht, eepWrite_eeprom]
  simp only [EEPROM_ABS_LOC_ADDR, EEPROM_HOME_LOC_ADDR, EEPROM_MIN_ADDR, EEPROM_MAX_ADDR,
    EEPROM_SPD_ADDR, EEPROM_ACC_ADDR]
  refine ⟨?_, ?_, ?_, ?_, ?_, ?_⟩
  · rw [get_put_other _ 20 0 _ (by omega), get_put_other _ 16 0 _ (by omega),
      get_put_other _ 12 0 _ (by omega), get_put_other _ 8 0 _ (by omega),
      get_put_other _ 4 0 _ (by omega), get_put_same _ 0 _ h1]
  · rw [get_put_other _ 20 4 _ (by omega), get_put_other _ 16 4 _ (by omega),
      get_put_other _ 12 4 _ (by omega), get_put_other _ 8 4 _ (by omega),
      get_put_same _ 4 _ h2]
  · rw [get_put_other _ 20 8 _ (by omega), get_put_other _ 16 8 _ (by omega),
      get_put_other _ 12 8 _ (by omega), get_put_same _ 8 _ h3]
  · rw [get_put_other _ 20 12 _ (by omega), get_put_other _ 16 12 _ (by omega),
      get_put_same _ 12 _ h4]
  · rw [get_put_other _ 20 16 _ (by omega), get_put_same _ 16 _ h5]
  · rw [get_put_same _ 20 _ h6]

/-! ## C6: persistence round trip -/

/-- C6: eepWrite followed by eepRead restores the drive position, homeOffset, minLimit,
maxLimit, commandedSpeed and commandedAcceleration that were saved; the same holds for a read
from any state that holds the written EEPROM, so the six fields at offsets 0 to 20 neither
overlap nor get swapped. -/
theorem eepWrite_eepRead_roundtrip (s : State)
    (h1 : isLong s.stepper.currentPos) (h2 : isLong s.homePosition)
    (h3 : isLong s.absMinPosition) (h4 : isLong s.absMaxPosition)
    (h5 : isLong s.speed) (h6 : isLong s.acceleration) :
    ((eepRead (eepWrite s)).stepper.currentPos = s.stepper.currentPos ∧
     (eepRead (eepWrite s)).homePosition = s.homePosition ∧
     (eepRead (eepWrite s)).absMinPosition = s.absMinPosition ∧
     (eepRead (eepWrite s)).absMaxPosition = s.absMaxPosition ∧
     (eepRead (eepWrite s)).speed = s.speed ∧
     (eepRead (eepWrite s)).acceleration = s.acceleration) ∧
    (∀ t : State, t.eeprom = (eepWrite s).eeprom →
      (eepRead t).stepper.currentPos = s.stepper.currentPos ∧
      (eepRead t).homePosition = s.homePosition ∧
      (eepRead t).absMinPosition = s.absMinPosition ∧
      (eepRead t).absMaxPosition = s.absMaxPosition ∧
      (eepRead t).speed = s.speed ∧
      (eepRead t).acceleration = s.acceleration) :=
  ⟨eepRead_of_written s (eepWrite s) rfl h1 h2 h3 h4 h5 h6,
   fun t ht => eepRead_of_written s t ht h1 h2 h3 h4 h5 h6⟩

/-- C6 at a record with six different values, the extreme `long` values among them. -/
theorem eepWrite_eepRead_roundtrip_witness :
    (eepRead (eepWrite recordSample)).stepper.currentPos = 40 ∧
    (eepRead (eepWrite recordSample)).homePosition = 12 ∧
    (eepRead (eepWrite recordSample)).absMinPosition = -2147483648 ∧
    (eepRead (eepWrite recordSample)).absMaxPosition = 2147483647 ∧
    (eepRead (eepWrite recordSample)).speed = -1 ∧
    (eepRead (eepWrite recordSample)).acceleration = 65536 :=
  (eepWrite_eepRead_roundtrip recordSample (by decide) (by decide) (by decide) (by decide)
    (by decide) (by decide)).1

/-! ## C7: the record at startup -/

/-- C7, as stated, fails for homeOffset: over a persisted record with the absolute position 40
and the home offset 12, setup() ends with homeOffset 40. -/
theorem setup_home_counterexample :
    rebooted.eeprom.get EEPROM_ABS_LOC_ADDR = 40 ∧
    rebooted.eeprom.get EEPROM_HOME_LOC_ADDR = 12 ∧
    (setup rebooted).homePosition = 40 ∧
    (setup rebooted).homePosition ≠ rebooted.eeprom.get EEPROM_HOME_LOC_ADDR := by
  decide

/-- C7 (amended): when setup() has finished, currentPosition, minLimit, maxLimit,
commandedSpeed and commandedAcceleration equal the corresponding fields of the persisted
record, and homeOffset equals the persisted absolute position, which is the current position
(setup ends with setHome). -/
theorem setup_loads_record (s : State) :
    (setup s).stepper.currentPos = s.eeprom.get EEPROM_ABS_LOC_ADDR ∧
    (setup s).absMinPosition = s.eeprom.get EEPROM_MIN_ADDR ∧
    (setup s).absMaxPosition = s.eeprom.get EEPROM_MAX_ADDR ∧
    (setup s).speed = s.eeprom.get EEPROM_SPD_ADDR ∧
    (setup s).acceleration = s.eeprom.get EEPROM_ACC_ADDR ∧
    (setup s).homePosition = s.eeprom.get EEPROM_ABS_LOC_ADDR ∧
    (setup s).homePosition = (setup s).stepper.currentPos :=
  ⟨rfl, rfl, rfl, rfl, rfl, rfl, rfl⟩

/-! ## C8: the stored reference position -/

/-- C8 at a failing input: from a state with position 5, home 0 and refPosition 5, one
control cycle without input in which button 2 is sampled pressed (clock 1000, no hold
elapsed) ends with home 5 and refPosition still 5, while currentPosition - homePosition is 0. -/
theorem button2_leaves_refPosition_stale :
    refStart.refPosition = refStart.stepper.currentPos - refStart.homePosition ∧
    (loop Option.none StepTaken.none 1000 (holdAt 1000) [] Option.none refStart).map
        (fun s => (s.refPosition, s.stepper.currentPos, s.homePosition)) = some (5, 5, 5) ∧
    (loop Option.none StepTaken.none 1000 (holdAt 1000) [] Option.none refStart).map
        (fun s => decide (s.refPosition = s.stepper.currentPos - s.homePosition)) = some false := by
  decide

/-! ## C9: the position reports -/

/-- C9, as stated, fails for opcode R when home is not 0: with position 7, home 2 and
scale 3, decoding R prints 21, not (7 - 2) * 3. -/
theorem report_R_counterexample :
    (decodeLine ['R'] scaledState).serial = [SerialOut.num 21] ∧
    (decodeLine ['R'] scaledState).serial ≠
      [SerialOut.num ((scaledState.stepper.currentPos - scaledState.homePosition)
        * scaledState.distancePerStep)] := by
  decide

/-- C9 (amended): decoding a line with opcode R prints currentPosition * distanceScale (the
product as a 32-bit long; homeOffset is not subtracted), decoding a line with opcode A
prints currentPosition unscaled, and neither changes anything else. -/
theorem report_opcodes (s : State) (line : List Char) :
    (firstChar (trim line) = 'R' →
      decodeLine line s = { s with serial := s.serial ++
        [SerialOut.num (wrapLong (s.stepper.currentPos * s.distancePerStep))] }) ∧
    (firstChar (trim line) = 'A' →
      decodeLine line s = { s with serial := s.serial ++ [SerialOut.num s.stepper.currentPos] }) ∧
    (isLong (s.stepper.currentPos * s.distancePerStep) →
      wrapLong (s.stepper.currentPos * s.distancePerStep)
        = s.stepper.currentPos * s.distancePerStep) := by
  refine ⟨?_, ?_, wrapLong_of_isLong⟩
  · intro h
    rw [← firstChar_parseCommand] at h
    simp [decodeLine, execCommand, h]
  · intro h
    rw [← firstChar_parseCommand] at h
    simp [decodeLine, execCommand, h]

/-- C9 at position 7, home 2, scale 3: R prints 21 and A prints 7. -/
theorem report_opcodes_witness :
    (decodeLine ['R'] scaledState).serial = [SerialOut.num 21] ∧
    (decodeLine ['A'] scaledState).serial = [SerialOut.num 7] :=
  ⟨(congrArg State.serial ((report_opcodes scaledState ['R']).1 (by decide))).trans (by decide),
   (congrArg State.serial ((report_opcodes scaledState ['A']).2.1 (by decide))).trans (by decide)⟩

/-! ## C10: unknown opcodes -/

theorem execCommand_unknown (op : Char) (value : Int) (s : State) (h : op ∉ knownOpcodes) :
    execCommand op value s = { s with serial := s.serial ++ [SerialOut.text "Invalid command."] } := by
  simp only [knownOpcodes, List.mem_cons, List.mem_singleton, not_or, List.not_mem_nil,
    not_false_eq_true, and_true] at h
  obtain ⟨h1, h2, h3, h4, h5, h6, h7, h8, h9, h10, h11, h12, h13, h14, h15, h16, h17⟩ := h
  simp only [execCommand, if_neg h1, if_neg h2, if_neg h3, if_neg h4, if_neg h5, if_neg h6,
    if_neg h7, if_neg h8, if_neg h9, if_neg h10, if_neg h11, if_neg h12, if_neg h13, if_neg h14,
    if_neg h15, if_neg h16, if_neg h17]

/-- C10: for every line whose opcode (the first character of the trimmed line, NUL for the
empty line) is not in the command table, decoding appends the text "Invalid command." to the
serial output and leaves every other part of the state unchanged: currentPosition,
targetPosition, homeOffset, minLimit, maxLimit, distanceScale, commandedSpeed,
commandedAcceleration, the report period and the EEPROM; the rest of the cycle is the one of
a cycle without input. -/
theorem unknown_opcode_no_change (line : List Char) (d : StepTaken) (s : State)
    (h : firstChar (trim line) ∉ knownOpcodes) :
    decodeLine line s = { s with serial := s.serial ++ [SerialOut.text "Invalid command."] } ∧
    (decodeLine line s).serial = s.serial ++ [SerialOut.text "Invalid command."] ∧
    (decodeLine line s).stepper.currentPos = s.stepper.currentPos ∧
    (decodeLine line s).stepper.targetPos = s.stepper.targetPos ∧
    (decodeLine line s).homePosition = s.homePosition ∧
    (decodeLine line s).absMinPosition = s.absMinPosition ∧
    (decodeLine line s).absMaxPosition = s.absMaxPosition ∧
    (decodeLine line s).distancePerStep = s.distancePerStep ∧
    (decodeLine line s).speed = s.speed ∧
    (decodeLine line s).acceleration = s.acceleration ∧
    (decodeLine line s).timer1 = s.timer1 ∧
    (decodeLine line s).eeprom = s.eeprom ∧
    processSerialCommands (some line) d s =
      processSerialCommands Option.none d
        { s with serial := s.serial ++ [SerialOut.text "Invalid command."] } := by
  have e : decodeLine line s
      = { s with serial := s.serial ++ [SerialOut.text "Invalid command."] } :=
    execCommand_unknown _ _ s (by rw [firstChar_parseCommand]; exact h)
  refine ⟨e, ?_, ?_, ?_, ?_, ?_, ?_, ?_, ?_, ?_, ?_, ?_, ?_⟩
  all_goals first
    | (rw [e])
    | (simp only [processSerialCommands, e])

/-- C10 at the line Q 5 and at the empty line. -/
theorem unknown_opcode_no_change_witness :
    (decodeLine ['Q', Char.ofNat 32, '5'] clampStart).serial
      = [SerialOut.text "Invalid command."] ∧
    (decodeLine ['Q', Char.ofNat 32, '5'] clampStart).stepper.currentPos = 0 ∧
    (decodeLine [] clampStart).serial = [SerialOut.text "Invalid command."] :=
  ⟨(unknown_opcode_no_change ['Q', Char.ofNat 32, '5'] StepTaken.none clampStart
      (by decide)).2.1.trans (by decide),
   (unknown_opcode_no_change ['Q', Char.ofNat 32, '5'] StepTaken.none clampStart
      (by decide)).2.2.1.trans (by decide),
   (unknown_opcode_no_change [] StepTaken.none clampStart (by decide)).2.1.trans (by decide)⟩

/-! ## C11: blocking moves -/

theorem execCommand_F (n : Int) (s : State) :
    execCommand 'F' n s =
      if inRange s then { s with stepper := (s.stepper.move n).runToPosition }
      else { s with stepper := s.stepper.move n } := rfl

theorem execCommand_B (n : Int) (s : State) :
    execCommand 'B' n s =
      if inRange s then { s with stepper := (s.stepper.move (wrapLong (-n))).runToPosition }
      else { s with stepper := s.stepper.move (wrapLong (-n)) } := rfl

theorem execCommand_P (n : Int) (s : State) :
    execCommand 'P' n s =
      if inRange s then { s with stepper := (s.stepper.moveTo n).runToPosition }
      else { s with stepper := s.stepper.moveTo n } := rfl

/-- C11: with inRange() true at call time the dispatch of F n returns with
currentPosition = old + n, that of B n with old - n (the results being `long` values) and
that of P n with n; with inRange() false the target is set to that destination and
currentPosition is not changed. -/
theorem blocking_moves (s : State) (n : Int) :
    (inRange s = true → isLong (s.stepper.currentPos + n) →
      (execCommand 'F' n s).stepper.currentPos = s.stepper.currentPos + n) ∧
    (inRange s = true → isLong (s.stepper.currentPos - n) →
      (execCommand 'B' n s).stepper.currentPos = s.stepper.currentPos - n) ∧
    (inRange s = true → (execCommand 'P' n s).stepper.currentPos = n) ∧
    (inRange s = false →
      (execCommand 'F' n s).stepper.currentPos = s.stepper.currentPos ∧
      (execCommand 'F' n s).stepper.targetPos = wrapLong (s.stepper.currentPos + n) ∧
      (execCommand 'B' n s).stepper.currentPos = s.stepper.currentPos ∧
      (execCommand 'B' n s).stepper.targetPos = wrapLong (s.stepper.currentPos + wrapLong (-n)) ∧
      (execCommand 'P' n s).stepper.currentPos = s.stepper.currentPos ∧
      (execCommand 'P' n s).stepper.targetPos = n) := by
  rw [execCommand_F, execCommand_B, execCommand_P]
  refine ⟨?_, ?_, ?_, ?_⟩
  · intro hr hl
    rw [if_pos hr]
    exact wrapLong_of_isLong hl
  · intro hr hl
    rw [if_pos hr]
    show wrapLong (s.stepper.currentPos + wrapLong (-n)) = s.stepper.currentPos - n
    unfold isLong at hl
    unfold wrapLong
    omega
  · intro hr
    rw [if_pos hr]
    rfl
  · intro hr
    simp only [hr, Bool.false_eq_true, if_false]
    exact ⟨rfl, rfl, rfl, rfl, rfl, rfl⟩

/-- C11 at the scenario of the specification: home 0, limits -9999999 and 9999999, the
line F 100 gives the absolute position 100 and the reference position 100. -/
theorem blocking_moves_witness :
    inRange (powerOn blankRom) = true ∧
    (execCommand 'F' 100 (powerOn blankRom)).stepper.currentPos = 100 ∧
    (processSerialCommands (some ['F', Char.ofNat 32, '1', '0', '0']) StepTaken.none
      (powerOn blankRom)).stepper.currentPos = 100 ∧
    (processSerialCommands (some ['F', Char.ofNat 32, '1', '0', '0']) StepTaken.none
      (powerOn blankRom)).refPosition = 100 :=
  ⟨by decide,
   ((blocking_moves (powerOn blankRom) 100).1 (by decide) (by decide)).trans (by decide),
   by decide, by decide⟩

/-! ## C18: the timer across the wrap of the clock -/

theorem usub_add_mod (p d : Nat) (hd : d < 4294967296) :
    usub ((p + d) % 4294967296) p = d := by
  unfold usub
  omega

/-- C18: when the clock reads d ms (d < 2^32) after previousMillis modulo 2^32, elapsed()
returns true exactly when d >= interval, wrapped clock or not; when it returns true
previousMillis becomes (previousMillis + interval) mod 2^32 and the interval is kept,
otherwise the timer is unchanged; reset() sets previousMillis to the clock reading. -/
theorem timer_elapsed_wraparound (t : Timer) (d : Nat) (hd : d < 4294967296) :
    ((t.elapsed ((t.previousMillis + d) % 4294967296)).1 = true ↔ t.interval ≤ d) ∧
    (t.interval ≤ d →
      (t.elapsed ((t.previousMillis + d) % 4294967296)).2.previousMillis
        = (t.previousMillis + t.interval) % 4294967296 ∧
      (t.elapsed ((t.previousMillis + d) % 4294967296)).2.interval = t.interval) ∧
    (¬ t.interval ≤ d → (t.elapsed ((t.previousMillis + d) % 4294967296)).2 = t) ∧
    (∀ now : Nat, (t.reset now).previousMillis = now ∧ (t.reset now).interval = t.interval) := by
  have hu := usub_add_mod t.previousMillis d hd
  refine ⟨?_, ?_, ?_, fun now => ⟨rfl, rfl⟩⟩
  · unfold Timer.elapsed
    rw [hu]
    by_cases h : t.interval ≤ d <;> simp [h]
  · intro h
    unfold Timer.elapsed
    rw [hu]
    simp [h]
  · intro h
    unfold Timer.elapsed
    rw [hu]
    simp [h]

/-- C18 across the wrap: previousMillis 4294967000, interval 3000; at the clock reading 2703
(2999 ms later) elapsed() is false, at 2704 (3000 ms later) it is true and previousMillis
becomes 2704. -/
theorem timer_elapsed_wraparound_witness :
    (lateTimer.elapsed 2703).1 = false ∧ (lateTimer.elapsed 2704).1 = true ∧
    (lateTimer.elapsed 2704).2.previousMillis = 2704 :=
  ⟨by decide,
   (timer_elapsed_wraparound lateTimer 3000 (by decide)).1.mpr (by decide),
   ((timer_elapsed_wraparound lateTimer 3000 (by decide)).2.1 (by decide)).1.trans
     (by decide)⟩

/-! ## C12: command parsing -/

theorem indexOf_none (ch : Char) (l : List Char) (h : indexOf ch l = none) : ch ∉ l := by
  induction l with
  | nil => simp
  | cons c cs ih =>
    unfold indexOf at h
    by_cases hc : c = ch
    · simp [hc] at h
    · simp only [if_neg hc, Option.map_eq_none'] at h
      simp only [List.mem_cons, not_or]
      exact ⟨fun e => hc e.symm, ih h⟩

theorem indexOf_some (ch : Char) (l : List Char) :
    ∀ k : Nat, indexOf ch l = some k →
      ch ∈ l ∧ l.take k = l.takeWhile (fun c => c != ch) ∧
      l.drop (k + 1) = (l.dropWhile (fun c => c != ch)).drop 1 := by
  induction l with
  | nil => intro k h; simp [indexOf] at h
  | cons c cs ih =>
    intro k h
    unfold indexOf at h
    by_cases hc : c = ch
    · simp only [if_pos hc, Option.some.injEq] at h
      subst h
      subst hc
      simp [List.takeWhile_cons, List.dropWhile_cons]
    · simp only [if_neg hc, Option.map_eq_some'] at h
      obtain ⟨j, hj, hk⟩ := h
      obtain ⟨m1, m2, m3⟩ := ih j hj
      subst hk
      have hb : (c != ch) = true := by simpa using hc
      refine ⟨List.mem_cons_of_mem _ m1, ?_, ?_⟩
      · simp only [List.take_succ_cons, List.takeWhile_cons, hb, if_true, m2]
      · simp only [List.drop_succ_cons, List.dropWhile_cons, hb, if_true, m3]

theorem digitsVal_eq (l : List Char) :
    ∀ acc : Int, digitsVal l acc =
      acc * 10 ^ (l.takeWhile isDigitChar).length
        + ((decimalValue (l.takeWhile isDigitChar) : Nat) : Int) := by
  induction l with
  | nil => intro acc; simp [digitsVal, decimalValue]
  | cons c cs ih =>
    intro acc
    by_cases h : 48 ≤ c.toNat ∧ c.toNat ≤ 57
    · have hd : isDigitChar c = true := by simp [isDigitChar, h.1, h.2]
      simp only [digitsVal, if_pos h, List.takeWhile_cons, hd, if_true, List.length_cons,
        decimalValue]
      rw [ih]
      push_cast
      ring
    · have hd : isDigitChar c = false := by
        simp only [isDigitChar, Bool.and_eq_false_imp, decide_eq_true_eq, decide_eq_false_iff_not]
        intro h1 h2
        exact h ⟨h1, h2⟩
      simp [digitsVal, h, List.takeWhile_cons, hd, decimalValue]

theorem digitsVal_zero (l : List Char) :
    digitsVal l 0 = ((decimalValue (l.takeWhile isDigitChar) : Nat) : Int) := by
  rw [digitsVal_eq]
  simp

theorem takeWhile_digit_of_not (c : Char) (cs : List Char) (h : isDigitChar c = false) :
    (c :: cs).takeWhile isDigitChar = [] := by
  simp [List.takeWhile_cons, h]

theorem toInt_eq_spec (text : List Char) : toInt text = wrapLong (specArgument text) := by
  unfold toInt specArgument startsWithNumber
  cases text.dropWhile isSpace with
  | nil => simp; decide
  | cons c cs =>
    simp only [digitsVal_zero]
    by_cases hm : c = '-'
    · subst hm
      cases cs with
      | nil => simp [decimalValue]
      | cons d ds =>
        cases hd : isDigitChar d with
        | true => simp [hd]
        | false => simp [hd, takeWhile_digit_of_not d ds hd, decimalValue]
    · by_cases hp : c = '+'
      · subst hp
        cases cs with
        | nil => simp [decimalValue]
        | cons d ds =>
          cases hd : isDigitChar d with
          | true => simp [hd]
          | false => simp [hd, takeWhile_digit_of_not d ds hd, decimalValue]
      · cases hd : isDigitChar c with
        | true => simp [hm, hp, hd]
        | false => simp [hm, hp, hd, takeWhile_digit_of_not c cs hd, decimalValue]

theorem specArgument_zero (text : List Char) (h : startsWithNumber text = false) :
    specArgument text = 0 := by
  simp [specArgument, h]

/-- C12: on the trimmed line the opcode is the first character of the text before the first
space (of the whole line when there is none) and the argument is the signed base-10 integer
the text after the first space starts with, as a `long`; the argument is 0 when the line has
no space and when the text after the space is empty or does not start with a number. -/
theorem parseCommand_spec (line : List Char) :
    firstChar (parseCommand line).1 = (specCommand line).1 ∧
    (parseCommand line).2 = wrapLong (specCommand line).2 ∧
    (isLong (specCommand line).2 → (parseCommand line).2 = (specCommand line).2) ∧
    (Char.ofNat 32 ∉ trim line → (parseCommand line).2 = 0) ∧
    (Char.ofNat 32 ∈ trim line →
      startsWithNumber (((trim line).dropWhile (fun c => c != Char.ofNat 32)).drop 1) = false →
      (parseCommand line).2 = 0) := by
  have key : firstChar (parseCommand line).1 = (specCommand line).1 ∧
      (parseCommand line).2 = wrapLong (specCommand line).2 := by
    unfold parseCommand specCommand
    cases h : indexOf (Char.ofNat 32) (trim line) with
    | none =>
      have hn := indexOf_none _ _ h
      simp only [h, if_neg hn]
      exact ⟨trivial, by decide⟩
    | some k =>
      obtain ⟨m1, m2, m3⟩ := indexOf_some _ _ k h
      simp only [h, if_pos m1, m2, m3, toInt_eq_spec, and_self]
  refine ⟨key.1, key.2, ?_, ?_, ?_⟩
  · intro hl
    rw [key.2, wrapLong_of_isLong hl]
  · intro hn
    rw [key.2]
    simp only [specCommand, if_neg hn]
    decide
  · intro hm hs
    rw [key.2]
    simp only [specCommand, if_pos hm, specArgument_zero _ hs]
    decide

/-- C12 at the four lines of the claim: F 100, B -7, F100 and P abc. -/
theorem parseCommand_spec_witness :
    (firstChar (parseCommand ['F', Char.ofNat 32, '1', '0', '0']).1 = 'F' ∧
      (parseCommand ['F', Char.ofNat 32, '1', '0', '0']).2 = 100) ∧
    (firstChar (parseCommand ['B', Char.ofNat 32, '-', '7']).1 = 'B' ∧
      (parseCommand ['B', Char.ofNat 32, '-', '7']).2 = -7) ∧
    (firstChar (parseCommand ['F', '1', '0', '0']).1 = 'F' ∧
      (parseCommand ['F', '1', '0', '0']).2 = 0) ∧
    (firstChar (parseCommand ['P', Char.ofNat 32, 'a', 'b', 'c']).1 = 'P' ∧
      (parseCommand ['P', Char.ofNat 32, 'a', 'b', 'c']).2 = 0) :=
  ⟨⟨(parseCommand_spec ['F', Char.ofNat 32, '1', '0', '0']).1.trans (by decide),
     ((parseCommand_spec ['F', Char.ofNat 32, '1', '0', '0']).2.2.1 (by decide)).trans
       (by decide)⟩,
   ⟨(parseCommand_spec ['B', Char.ofNat 32, '-', '7']).1.trans (by decide),
     ((parseCommand_spec ['B', Char.ofNat 32, '-', '7']).2.2.1 (by decide)).trans (by decide)⟩,
   ⟨(parseCommand_spec ['F', '1', '0', '0']).1.trans (by decide),
     (parseCommand_spec ['F', '1', '0', '0']).2.2.2.1 (by decide)⟩,
   ⟨(parseCommand_spec ['P', Char.ofNat 32, 'a', 'b', 'c']).1.trans (by decide),
     (parseCommand_spec ['P', Char.ofNat 32, 'a', 'b', 'c']).2.2.2.2 (by decide) (by decide)⟩⟩

/-! ## C13: the hold before a save -/

/-- C13 at a failing input: after power-on, an idle cycle at clock 100 resets the hold timer,
button 2 alone is held from 200 to 3000 (nothing is saved, the wizard is not entered), and in
the cycle at 3100 buttons 1 and 3 are sampled pressed for the first time: that cycle performs
the save (confirmation shown, minLimit written to the EEPROM). -/
theorem save_after_button2_hold :
    (button2Hold.map fun i => i.b1 && i.b3) = [false, false, false, false, false] ∧
    (buttonCycles button2Hold (powerOn blankRom)).map
        (fun s => (s.screen, s.counter, s.eeprom.get EEPROM_MIN_ADDR)) = some ([], 0, -1) ∧
    (buttonCycles (button2Hold ++ [bothAt 3100]) (powerOn blankRom)).map
        (fun s => (s.screen, s.eeprom.get EEPROM_MIN_ADDR))
      = some ([some "Data saved"], -9999999) := by
  decide

/-! ## C14: the holds inside the wizard -/

/-- C14 at a failing input: the wizard is entered at clock 5000 and button 2 is simply kept
pressed.  The first iteration (clock 8000) already advances, the second advance follows
1000 ms later and the third one 1000 ms after that: the run is complete at clock 10000, with
both limits and home at the position 10. -/
theorem wizard_advances_without_hold :
    (setAbsMsBody (holdAt 8000) wizardStart).counter = 1 ∧
    (setAbsMsBody (holdAt 9000) (setAbsMsBody (holdAt 8000) wizardStart)).counter = 2 ∧
    (updateGesture wizardEntry eagerRun wizardStart).map
        (fun s => (s.counter, s.absMinPosition, s.absMaxPosition, s.homePosition))
      = some (3, 10, 10, 10) := by
  decide

/-! ## C15: entering the wizard again -/

theorem updateButtons_counter_done (i : Sample) (wiz : List Sample) (brake : Option Int)
    (s : State) (h : ¬ s.counter < 3) :
    updateButtons i wiz brake s = updateButtons i [] brake s := by
  have key : ∀ X : State, ¬ X.counter < 3 → setAbsMs wiz X = setAbsMs [] X :=
    fun X hX => (setAbsMs_done wiz X hX).trans (setAbsMs_done [] X hX).symm
  unfold updateButtons
  refine congrArg (Option.map (pinHome brake)) ?_
  unfold updateGesture
  dsimp only
  split_ifs
  all_goals first
    | rfl
    | (apply key; exact h)

/-- C15 at a failing input: after the completed wizard run on `wizardRun` the counter
is 3; the user releases, jogs down to 15 and holds button 2 again.  The cycle at clock 24200
enters the wizard, which returns at once whatever the readings inside it are: the counter is
still 3, the limits are still 10 and 20, and no wizard message is shown. -/
theorem second_wizard_entry_does_nothing (wiz : List Sample) :
    afterWizard.counter = 3 ∧
    (updateButtons (holdAt 24200) wiz Option.none beforeSecondEntry).map
        (fun s => (s.counter, s.absMinPosition, s.absMaxPosition, s.stepper.currentPos))
      = some (3, 10, 20, 15) ∧
    (updateButtons (holdAt 24200) wiz Option.none beforeSecondEntry).map
        (fun s => s.screen.drop 4) = some [some "Set min position"] := by
  refine ⟨by decide, ?_⟩
  rw [updateButtons_counter_done _ wiz _ _ (by decide)]
  exact ⟨by decide, by decide⟩

/-! ## C16: the move to home -/

/-- C16 at a failing input: from rest at 0 with home 50 and no button pressed, a control
cycle that decodes H sets the target to 50 in processSerialCommands, and the idle branch of
updateButtons in the same cycle sets the target back to the current position: the cycle ends
with target = currentPosition, not home, whatever step run() took. -/
theorem home_request_cancelled (d : StepTaken) :
    inRange homeRequest = true ∧
    (processSerialCommands (some ['H']) d homeRequest).stepper.targetPos = 50 ∧
    (loop (some ['H']) d 100 (idleAt 100) [] Option.none homeRequest).map
        (fun s => (s.homePosition, decide (s.stepper.targetPos = s.stepper.currentPos),
          decide (s.stepper.targetPos = s.homePosition)))
      = some (50, true, false) := by
  cases d <;> decide

/-! ## C17: button 2 pins home -/

theorem wizardAdvance_button2 (s : State) :
    (wizardAdvance s).button2State = s.button2State := by
  unfold wizardAdvance
  split_ifs <;> rfl

theorem setAbsMsBody_button2 (i : Sample) (s : State)
    (h : (setAbsMsBody i s).counter ≠ s.counter) : (setAbsMsBody i s).button2State = true := by
  unfold setAbsMsBody at h ⊢
  dsimp only at h ⊢
  cases hb : i.b2 with
  | true =>
    simp only [hb, if_true]
    split_ifs
    · rw [wizardAdvance_button2]
    · rfl
  | false =>
    simp only [hb, Bool.false_eq_true, if_false] at h
    split_ifs at h <;> exact absurd rfl h

theorem setAbsMs_button2 (ins : List Sample) :
    ∀ s r : State, setAbsMs ins s = some r → (s.counter < 3 ∨ s.button2State = true) →
      r.button2State = true := by
  induction ins with
  | nil =>
    intro s r h hb
    by_cases hc : s.counter < 3
    · simp [setAbsMs, hc] at h
    · simp only [setAbsMs, hc, if_false, Option.some.injEq] at h
      rw [← h]
      exact hb.resolve_left hc
  | cons i rest ih =>
    intro s r h hb
    by_cases hc : s.counter < 3
    · simp only [setAbsMs, hc, if_true] at h
      refine ih _ r h ?_
      by_cases h3 : (setAbsMsBody i s).counter < 3
      · exact Or.inl h3
      · exact Or.inr (setAbsMsBody_button2 i s (by omega))
    · simp only [setAbsMs, hc, if_false, Option.some.injEq] at h
      rw [← h]
      exact hb.resolve_left hc

theorem updateGesture_button2 (i : Sample) (wiz : List Sample) (s g : State)
    (hb : i.b2 = true) (h : updateGesture i wiz s = some g) : g.button2State = true := by
  unfold updateGesture at h
  dsimp only at h
  simp only [hb, if_true] at h
  split_ifs at h
  · rw [← Option.some.inj h]
    rfl
  · rw [← Option.some.inj h]
  · exact setAbsMs_button2 wiz _ g h (Or.inr rfl)
  · rw [← Option.some.inj h]

theorem pinHome_home (brake : Option Int) (g : State) (hb : g.button2State = true) :
    (pinHome brake g).homePosition = (pinHome brake g).stepper.currentPos := by
  unfold pinHome
  simp only [hb, if_true]
  rfl

theorem pinHome_frame (brake : Option Int) (t : State) :
    (pinHome brake t).absMinPosition = t.absMinPosition ∧
    (pinHome brake t).absMaxPosition = t.absMaxPosition ∧
    (pinHome brake t).distancePerStep = t.distancePerStep ∧
    (pinHome brake t).speed = t.speed ∧
    (pinHome brake t).acceleration = t.acceleration ∧
    (pinHome brake t).stepper.currentPos = t.stepper.currentPos := by
  unfold pinHome setHome
  cases brake <;> split_ifs <;> exact ⟨rfl, rfl, rfl, rfl, rfl, rfl⟩

/-- C17: every updateButtons cycle in which button 2 is sampled pressed ends with
homeOffset equal to the drive's currentPosition; the re-pinning leaves minLimit, maxLimit,
distanceScale, commandedSpeed, commandedAcceleration and the position itself unchanged; and
opcode C sets homeOffset to currentPosition and changes nothing else. -/
theorem button2_pins_home (i : Sample) (wiz : List Sample) (brake : Option Int) (s r : State)
    (hb : i.b2 = true) (h : updateButtons i wiz brake s = some r) :
    r.homePosition = r.stepper.currentPos ∧
    (∀ t : State,
      (pinHome brake t).absMinPosition = t.absMinPosition ∧
      (pinHome brake t).absMaxPosition = t.absMaxPosition ∧
      (pinHome brake t).distancePerStep = t.distancePerStep ∧
      (pinHome brake t).speed = t.speed ∧
      (pinHome brake t).acceleration = t.acceleration ∧
      (pinHome brake t).stepper.currentPos = t.stepper.currentPos) ∧
    (∀ (v : Int) (t : State),
      execCommand 'C' v t = { t with homePosition := t.stepper.currentPos }) := by
  refine ⟨?_, pinHome_frame brake, fun _ _ => rfl⟩
  unfold updateButtons at h
  cases hg : updateGesture i wiz s with
  | none => simp [hg] at h
  | some g =>
    simp only [hg, Option.map_some', Option.some.injEq] at h
    rw [← h]
    exact pinHome_home brake g (updateGesture_button2 i wiz s g hb hg)

/-- C17 at a cycle with button 2 pressed at position 5, home 0: the cycle ends with home 5. -/
theorem button2_pins_home_witness :
    refStart.homePosition = 0 ∧ pinnedState.stepper.currentPos = 5 ∧
    pinnedState.homePosition = pinnedState.stepper.currentPos :=
  ⟨by decide, by decide,
   (button2_pins_home (holdAt 1000) [] Option.none refStart pinnedState rfl rfl).1⟩

/-! ## C19: the index into the message table -/

/-- C19 at a failing input: the third advance (counter 2) increments the counter to 3 and
then looks up setState[3], outside the 3-entry table; the first two advances use the indices
1 and 2, and index 0 is never used. -/
theorem wizard_message_index_out_of_bounds :
    setState.length = 3 ∧
    homeScenario.counter = 2 ∧
    (wizardAdvance homeScenario).counter = 3 ∧
    (wizardAdvance homeScenario).screen = [setState.get? 3] ∧
    setState.get? 3 = none ∧
    (updateGesture wizardEntry wizardRun wizardStart).map (fun s => s.screen) =
      some [some "Set min position", setState.get? 1, setState.get? 2, setState.get? 3] := by
  decide

/-! ## Runs of cycles: the braking distance and the whole loop -/

theorem withTarget_eq (a b : State) (h : withTarget 0 a = withTarget 0 b) :
    a = withTarget a.stepper.targetPos b := by
  rcases a with ⟨⟨ca, ta⟩, a1, a2, a3, a4, a5, a6, a7, a8, a9, a10, a11, a12, a13, a14, a15, a16, a17⟩
  rcases b with ⟨⟨cb, tb⟩, b1, b2, b3, b4, b5, b6, b7, b8, b9, b10, b11, b12, b13, b14, b15, b16, b17⟩
  simp only [withTarget, State.mk.injEq, AccelStepper.mk.injEq] at h ⊢
  tauto

theorem pinHome_withTarget (b c : Option Int) (u : Int) (s : State) :
    withTarget 0 (pinHome b (withTarget u s)) = withTarget 0 (pinHome c s) := by
  rcases s with ⟨⟨cs, ts⟩, a1, a2, a3, a4, a5, a6, a7, a8, a9, a10, a11, a12, a13, a14, a15, a16, a17⟩
  cases a12 <;> cases b <;> cases c <;>
    simp only [pinHome, withTarget, setHome, Bool.false_eq_true, if_false, if_true] <;>
    split_ifs <;> rfl

theorem updateGesture_withTarget (i : Sample) (u : Int) (s : State) :
    (updateGesture i [] (withTarget u s)).map (withTarget 0)
      = (updateGesture i [] s).map (withTarget 0) := by
  rcases s with ⟨⟨cs, ts⟩, a1, a2, a3, a4, a5, a6, a7, a8, a9, a10, a11, a12, a13, a14, a15, a16, a17⟩
  rcases i with ⟨now, b1, b2, b3, step⟩
  cases b1 <;> cases b2 <;> cases b3 <;>
    simp only [updateGesture, withTarget, inRange, setAbsMs, eepWrite, Bool.and_true,
      Bool.and_false, Bool.true_and, Bool.false_and, Bool.false_eq_true, if_true, if_false] <;>
    first
      | rfl
      | (split_ifs <;> rfl)

theorem updateButtons_withTarget (i : Sample) (b c : Option Int) (u : Int) (s : State) :
    (updateButtons i [] b (withTarget u s)).map (withTarget 0)
      = (updateButtons i [] c s).map (withTarget 0) := by
  have hg := updateGesture_withTarget i u s
  unfold updateButtons
  cases h1 : updateGesture i [] (withTarget u s) with
  | none =>
    cases h2 : updateGesture i [] s with
    | none => rfl
    | some g2 => simp [h1, h2] at hg
  | some g1 =>
    cases h2 : updateGesture i [] s with
    | none => simp [h1, h2] at hg
    | some g2 =>
      simp only [h1, h2, Option.map_some', Option.some.injEq] at hg ⊢
      rw [withTarget_eq g1 g2 hg]
      exact pinHome_withTarget b c _ g2

/-- The braking distances only reach the drive's target: on the same readings, a run of
`updateButtons` calls with any braking distances, from any target, ends in the state of
`buttonCycles` up to `targetPos`. -/
theorem buttonCyclesWith_eq (ins : List (Sample × Option Int)) :
    ∀ (u : Int) (s : State),
      (buttonCyclesWith ins (withTarget u s)).map (withTarget 0)
        = (buttonCycles (ins.map Prod.fst) s).map (withTarget 0) := by
  induction ins with
  | nil => intro u s; rfl
  | cons ib rest ih =>
    intro u s
    have hu := updateButtons_withTarget ib.1 ib.2 Option.none u s
    simp only [buttonCyclesWith, buttonCycles, List.map_cons]
    cases h1 : updateButtons ib.1 [] ib.2 (withTarget u s) with
    | none =>
      cases h2 : updateButtons ib.1 [] Option.none s with
      | none => rfl
      | some g2 => simp [h1, h2] at hu
    | some g1 =>
      cases h2 : updateButtons ib.1 [] Option.none s with
      | none => simp [h1, h2] at hu
      | some g2 =>
        simp only [h1, h2, Option.map_some', Option.some.injEq] at hu
        simp only [Option.some_bind]
        rw [withTarget_eq g1 g2 hu]
        exact ih _ g2

/-- The run of cycles in which a save follows a hold of button 2 alone gives the same result
through whole passes of `loop()`: nothing is saved before the pass at 3100, which saves. -/
theorem loop_run_saves_after_button2_hold :
    (loopCycles (button2HoldLoop.take 5) (powerOn blankRom)).map
        (fun s => (s.screen, s.eeprom.get EEPROM_MIN_ADDR)) = some ([], -1) ∧
    (loopCycles button2HoldLoop (powerOn blankRom)).map
        (fun s => (s.screen, s.eeprom.get EEPROM_MIN_ADDR))
      = some ([some "Data saved"], -9999999) := by
  decide

/-- The second entry into the wizard gives the same result through whole passes of `loop()`
with a moving drive: the wizard returns at once, the limits stay 10 and 20. -/
theorem loop_run_second_entry_returns :
    (loopCycles (secondEntryLoop.take 10) afterWizard).map
        (fun s => (s.counter, s.absMinPosition, s.absMaxPosition, s.stepper.currentPos))
      = some (3, 10, 20, 15) ∧
    (loopCycles secondEntryLoop afterWizard).map
        (fun s => (s.counter, s.absMinPosition, s.absMaxPosition, s.stepper.currentPos))
      = some (3, 10, 20, 15) ∧
    (loopCycles secondEntryLoop afterWizard).map (fun s => s.screen.drop 4)
      = some [some "Set min position"] := by
  decide

end Steppercontroller
